import Mathlib

/-!
Verification development for the rpi-openmax pipeline orchestrator
(`rpi-camera-encode` monolith and its `rpi-camera-Rearrangement`
split into omx_component files).

The definitions below are shallow embeddings of the C functions:
busy-wait loops become fuel-indexed recursions over an observation
function (the value the hardware reports at each poll), the drain loop
becomes a step function over an explicit state record driven by a list
of per-iteration environment inputs, and straight-line initialisation
or shutdown sequences become lists of abstract protocol calls.
-/

/-! ## Port enable/disable wait: `block_until_port_changed`
Source (both `part_000` lines 379-393 and `omx_camera.h` lines 90-104):

  OMX_U32 i = 0;
  while(i++ == 0 || portdef.bEnabled != bEnabled) {
      if((r = OMX_GetParameter(...portdef)) != OMX_ErrorNone) omx_die(r, ...);
      if(portdef.bEnabled != bEnabled) usleep(10000);
  }

Each `OMX_GetParameter` query is an observation `obs i : Except Nat Bool`
(error code or the reported `bEnabled` flag). The loop body always runs at
least once; a query error dies fatally; a mismatching flag sleeps and
re-polls. `PortOutcome.returned q s` records that the function returned
after `q` queries and `s` sleeps; `PortOutcome.fatal e` records `omx_die`. -/

inductive PortOutcome
  | returned (queries sleeps : Nat)
  | fatal (e : Nat)
deriving DecidableEq, Repr

/-- Fuel-indexed embedding of the poll loop of `block_until_port_changed`;
`i` is the index of the next query, `sleeps` the sleeps so far, and `none`
means the fuel ran out with the loop still polling. -/
def block_until_port_changed (obs : Nat → Except Nat Bool) (bEnabled : Bool) :
    Nat → Nat → Nat → Option PortOutcome
  | _, _, 0 => none
  | i, sleeps, fuel + 1 =>
    match obs i with
    | Except.error e => some (PortOutcome.fatal e)
    | Except.ok b =>
      if b = bEnabled then some (PortOutcome.returned (i + 1) sleeps)
      else block_until_port_changed obs bEnabled (i + 1) (sleeps + 1) fuel

/-- Helper observation streams used by the concrete witnesses. -/
def okTrueObs : Nat → Except Nat Bool := fun _ => Except.ok true

def errSevenObs : Nat → Except Nat Bool := fun _ => Except.error 7

theorem block_until_port_changed_ret_aux (obs : Nat → Except Nat Bool) (bEnabled : Bool) :
    ∀ (fuel i s q sl : Nat),
      block_until_port_changed obs bEnabled i s fuel = some (PortOutcome.returned q sl) →
      obs (q - 1) = Except.ok bEnabled := by
  intro fuel
  induction fuel with
  | zero => intro i s q sl h; simp [block_until_port_changed] at h
  | succ n ih =>
    intro i s q sl h
    unfold block_until_port_changed at h
    cases hobs : obs i with
    | error e => rw [hobs] at h; simp at h
    | ok b =>
      rw [hobs] at h
      by_cases hb : b = bEnabled
      · simp [hb] at h
        obtain ⟨hq, _⟩ := h
        subst hb
        subst hq
        simpa using hobs
      · simp [hb] at h
        exact ih (i + 1) (s + 1) q sl h

/-- C5. Port-change wait completeness: whenever `block_until_port_changed`
returns normally, the last port-definition query reported the requested
enabled flag (the wait never returns before the hardware-reported flag
equals the requested value), and whenever the current query returns a
non-success status the function terminates fatally with that status. -/
theorem block_until_port_changed_complete :
    ∀ (obs : Nat → Except Nat Bool) (bEnabled : Bool) (fuel q sl : Nat),
      (block_until_port_changed obs bEnabled 0 0 fuel = some (PortOutcome.returned q sl) →
        obs (q - 1) = Except.ok bEnabled) ∧
      (∀ (i s e fl : Nat), obs i = Except.error e →
        block_until_port_changed obs bEnabled i s (fl + 1) = some (PortOutcome.fatal e)) := by
  intro obs bEnabled fuel q sl
  constructor
  · exact block_until_port_changed_ret_aux obs bEnabled fuel 0 0 q sl
  · intro i s e fl h
    unfold block_until_port_changed
    rw [h]

/-- Witness for C5 at concrete inputs: a run that returns did report the
requested value at its last query, and a run that hits a query error is
fatal with that error code. -/
theorem block_until_port_changed_complete_witness :
    okTrueObs 0 = Except.ok true ∧
    block_until_port_changed errSevenObs true 2 5 1 = some (PortOutcome.fatal 7) :=
  ⟨(block_until_port_changed_complete okTrueObs true 1 1 0).1 (by rfl),
   (block_until_port_changed_complete errSevenObs true 0 0 0).2 2 5 7 0 (by rfl)⟩

/-- C6. Idempotent disable: when the very first query already reports the
requested flag, the loop returns after exactly one query and zero sleeps. -/
theorem block_until_port_changed_idempotent (obs : Nat → Except Nat Bool)
    (bEnabled : Bool) (fuel : Nat) (h : obs 0 = Except.ok bEnabled) :
    block_until_port_changed obs bEnabled 0 0 (fuel + 1) =
      some (PortOutcome.returned 1 0) := by
  unfold block_until_port_changed
  rw [h]
  simp

/-- Witness for C6: a stream that reports `true` at once makes the wait for
`true` return after one query and no sleep. -/
theorem block_until_port_changed_idempotent_witness :
    okTrueObs 0 = Except.ok true ∧
    block_until_port_changed okTrueObs true 0 0 3 = some (PortOutcome.returned 1 0) :=
  ⟨by rfl, block_until_port_changed_idempotent okTrueObs true 2 (by rfl)⟩

/-! ## Camera-ready waits
The monolithic `part_000` main (lines 686-689) waits with

  while(!ctx.camera_ready) { usleep(10000); }

no counter, no fatal exit. The rearranged `omx_camera.c`
`camera_block_until_camera_ready` (lines 252-259) waits with

  int n = 0;
  while(!omx_camera.ready) { usleep(10000); if(n++ > 100) die(...); }

`obs i` is the value of the ready flag at the i-th check. -/

/-- Embedding of the unbounded camera-ready wait of `part_000` main:
`true` when the loop has exited within `fuel` checks. There is no fatal
branch in the source loop, so the only way out is observing the flag. -/
def main_camera_ready_wait (obs : Nat → Bool) : Nat → Nat → Bool
  | _, 0 => false
  | i, fuel + 1 => if obs i then true else main_camera_ready_wait obs (i + 1) fuel

inductive CamWaitOutcome
  | ready
  | fatal
deriving DecidableEq, Repr

/-- Embedding of the bounded wait of `camera_block_until_camera_ready`:
`n` is the retry counter, and the post-increment test `n++ > 100` dies on
the iteration whose old counter value is 101. -/
def camera_block_until_camera_ready (obs : Nat → Bool) :
    Nat → Nat → Nat → Option CamWaitOutcome
  | _, _, 0 => none
  | i, n, fuel + 1 =>
    if obs i then some CamWaitOutcome.ready
    else if n > 100 then some CamWaitOutcome.fatal
    else camera_block_until_camera_ready obs (i + 1) (n + 1) fuel

theorem main_camera_ready_wait_never_aux :
    ∀ (fuel i : Nat), main_camera_ready_wait (fun _ => false) i fuel = false := by
  intro fuel
  induction fuel with
  | zero => intro i; rfl
  | succ n ih => intro i; simpa [main_camera_ready_wait] using ih (i + 1)

theorem camera_block_bounded_aux (obs : Nat → Bool) :
    ∀ (fuel n i : Nat), n ≤ 101 → 102 ≤ n + fuel →
      (camera_block_until_camera_ready obs i n fuel).isSome = true := by
  intro fuel
  induction fuel with
  | zero => intro n i h1 h2; omega
  | succ f ih =>
    intro n i h1 h2
    unfold camera_block_until_camera_ready
    by_cases ho : obs i
    · simp [ho]
    · simp only [ho, if_false, Bool.false_eq_true]
      by_cases hn : n > 100
      · simp [hn]
      · simp only [hn, if_false]
        exact ih (n + 1) (i + 1) (by omega) (by omega)

/-- C4 counterexample: after 300 polls with the ready flag never set, the
monolithic main's camera-ready wait is still looping (it has neither
proceeded nor died), while the bounded variant already terminated fatally
well within that budget — the claim's bounded-retry/fatal-exhaustion
behaviour does not hold for the wait in `part_000` main. -/
theorem main_camera_ready_wait_unbounded_cex :
    main_camera_ready_wait (fun _ => false) 0 300 = false ∧
    camera_block_until_camera_ready (fun _ => false) 0 0 300 =
      some CamWaitOutcome.fatal := by
  constructor
  · exact main_camera_ready_wait_never_aux 300 0
  · decide

/-- C4 amended: the rearranged `camera_block_until_camera_ready` is a
bounded wait — for every observation sequence it terminates within 102
polls, fatally when the retry budget is exhausted without the flag — while
the camera-ready wait in `part_000` main never exits on a run in which the
flag is never set, however much fuel it is given. -/
theorem camera_ready_wait_bounded :
    (∀ (obs : Nat → Bool),
      (camera_block_until_camera_ready obs 0 0 102).isSome = true) ∧
    camera_block_until_camera_ready (fun _ => false) 0 0 102 =
      some CamWaitOutcome.fatal ∧
    (∀ (fuel : Nat), main_camera_ready_wait (fun _ => false) 0 fuel = false) := by
  refine ⟨fun obs => camera_block_bounded_aux obs 102 0 0 (by omega) (by omega), by decide, ?_⟩
  intro fuel
  exact main_camera_ready_wait_never_aux fuel 0

/-! ## Flush wait: `block_until_flushed`
Source (`part_000` lines 395-408 and `omx_camera.h` lines 106-119):

  int quit;
  while(!quit) {
      vcos_semaphore_wait(&ctx->handler_lock);
      if(ctx->flushed) { ctx->flushed = 0; quit = 1; }
      vcos_semaphore_post(&ctx->handler_lock);
      if(!quit) usleep(10000);
  }

`quit` is declared without an initialiser and read by the guard before any
assignment, so the embedding takes its initial value as a parameter.
`obs i` is the value of `ctx->flushed` at the i-th lock acquisition; the
result counts how many times the flushed flag was reset before returning
(`none` = fuel ran out). -/

def block_until_flushed (obs : Nat → Bool) : Int → Nat → Nat → Nat → Option Nat
  | quit, resets, _, 0 => if quit ≠ 0 then some resets else none
  | quit, resets, i, fuel + 1 =>
    if quit ≠ 0 then some resets
    else if obs i then block_until_flushed obs 1 (resets + 1) (i + 1) fuel
    else block_until_flushed obs 0 resets (i + 1) fuel

theorem block_until_flushed_quit_set_aux (obs : Nat → Bool) :
    ∀ (fuel r i : Nat), block_until_flushed obs 1 r i fuel = some r := by
  intro fuel
  induction fuel with
  | zero => intro r i; simp [block_until_flushed]
  | succ f _ => intro r i; simp [block_until_flushed]

theorem block_until_flushed_zero_aux (obs : Nat → Bool) :
    ∀ (fuel i k : Nat), block_until_flushed obs 0 0 i fuel = some k → k = 1 := by
  intro fuel
  induction fuel with
  | zero => intro i k h; simp [block_until_flushed] at h
  | succ f ih =>
    intro i k h
    unfold block_until_flushed at h
    simp only [ne_eq, not_true_eq_false, if_false, reduceIte] at h
    by_cases ho : obs i
    · rw [if_pos ho, block_until_flushed_quit_set_aux obs f 1 (i + 1)] at h
      exact (Option.some_inj.mp h).symm
    · rw [if_neg ho] at h
      exact ih (i + 1) k h

/-- C9. The loop-control variable `quit` of `block_until_flushed` is read
uninitialised: when its garbage initial value is nonzero the function
returns at once — even with zero fuel, i.e. without a single observation of
the flushed flag and without resetting it — while every run that starts
with `quit = 0` resets the flushed flag exactly once before returning. -/
theorem block_until_flushed_uninit_quit :
    (∀ (fuel : Nat), block_until_flushed (fun _ => false) 1 0 0 fuel = some 0) ∧
    (∀ (obs : Nat → Bool) (fuel k : Nat),
      block_until_flushed obs 0 0 0 fuel = some k → k = 1) := by
  constructor
  · intro fuel; exact block_until_flushed_quit_set_aux (fun _ => false) fuel 0 0
  · intro obs fuel k h; exact block_until_flushed_zero_aux obs fuel 0 k h

/-- Witness for C9: a run with `quit` starting at 0 and the flag raised
immediately returns after exactly one reset. -/
theorem block_until_flushed_uninit_quit_witness :
    block_until_flushed (fun _ => true) 0 0 0 2 = some 1 ∧ (1 : Nat) = 1 :=
  ⟨by decide, block_until_flushed_uninit_quit.2 (fun _ => true) 2 1 (by decide)⟩

/-! ## Component state transitions during shutdown
`omx_camera.c` wires a `common_interface` whose lifecycle methods issue an
`OMX_SendCommand(OMX_CommandStateSet, target)` followed by
`block_until_state_changed(handle, target)`. Each such method is embedded
as the list of protocol calls it makes, and `part_000` main's shutdown
sequence (lines 993-1017) as a component-tagged list of the same calls. -/

inductive OMXSt
  | loaded
  | idle
  | executing
deriving DecidableEq, Repr

inductive StateCall
  | sendStateSet (target : OMXSt)
  | blockUntilState (target : OMXSt)
deriving DecidableEq, Repr

def stateCallTarget : StateCall → OMXSt
  | StateCall.sendStateSet t => t
  | StateCall.blockUntilState t => t

/-- Calls of `camera_idle_state` (omx_camera.c lines 207-213). -/
def camera_idle_state : List StateCall :=
  [StateCall.sendStateSet OMXSt.idle, StateCall.blockUntilState OMXSt.idle]

/-- Calls of `camera_excute_state` (omx_camera.c lines 215-221). -/
def camera_excute_state : List StateCall :=
  [StateCall.sendStateSet OMXSt.executing, StateCall.blockUntilState OMXSt.executing]

/-- Calls of `camera_load_state` (omx_camera.c lines 223-229): the body
sends `OMX_CommandStateSet` with `OMX_StateIdle` and blocks until the
reported state is `OMX_StateIdle`. -/
def camera_load_state : List StateCall :=
  [StateCall.sendStateSet OMXSt.idle, StateCall.blockUntilState OMXSt.idle]

inductive Comp
  | camera
  | encoder
  | nullSink
deriving DecidableEq, Repr

/-- The state-set commands of `part_000` main's shutdown (lines 993-1017):
all three components to idle, then all three to loaded, each send followed
by a blocking wait for the same target. -/
def main_shutdown_state_calls : List (Comp × StateCall) :=
  [ (Comp.camera, StateCall.sendStateSet OMXSt.idle),
    (Comp.camera, StateCall.blockUntilState OMXSt.idle),
    (Comp.encoder, StateCall.sendStateSet OMXSt.idle),
    (Comp.encoder, StateCall.blockUntilState OMXSt.idle),
    (Comp.nullSink, StateCall.sendStateSet OMXSt.idle),
    (Comp.nullSink, StateCall.blockUntilState OMXSt.idle),
    (Comp.camera, StateCall.sendStateSet OMXSt.loaded),
    (Comp.camera, StateCall.blockUntilState OMXSt.loaded),
    (Comp.encoder, StateCall.sendStateSet OMXSt.loaded),
    (Comp.encoder, StateCall.blockUntilState OMXSt.loaded),
    (Comp.nullSink, StateCall.sendStateSet OMXSt.loaded),
    (Comp.nullSink, StateCall.blockUntilState OMXSt.loaded) ]

/-- C3. The monolithic shutdown sequence does drive each component
Idle-then-Loaded, but the rearranged camera's `load_state` operation — the
one that is supposed to drive the component to Loaded — issues only an
idle-targeted state-set and blocks until Idle: no call of
`camera_load_state` ever targets the Loaded state. -/
theorem camera_load_state_targets_idle :
    camera_load_state.map stateCallTarget = [OMXSt.idle, OMXSt.idle] ∧
    (camera_load_state.all fun c => stateCallTarget c != OMXSt.loaded) = true ∧
    ((main_shutdown_state_calls.filter fun p => p.1 == Comp.camera).map
      fun p => stateCallTarget p.2) =
      [OMXSt.idle, OMXSt.idle, OMXSt.loaded, OMXSt.loaded] := by
  decide

/-! ## Critical-section discipline for the shared flags
The shared flags are `ctx.flushed`, `ctx.camera.ready` and
`ctx.encoder.ready`; the critical section is `ctx.handler_lock`
(`vcos_semaphore_wait` / `vcos_semaphore_post`). Every access the source
makes to one of these flags is transcribed below with the `part_000` line
it occurs on (the flush-wait lines also appear verbatim in
`omx_camera.h`), who makes it, and whether the lock is held around it. -/

inductive SharedFlag
  | flushed
  | cameraReady
  | encoderReady
deriving DecidableEq, Repr

inductive AccessCtx
  | callback
  | controlThread
deriving DecidableEq, Repr

inductive RW
  | readAcc
  | writeAcc
deriving DecidableEq, Repr

structure FlagAccess where
  line : Nat
  ctxt : AccessCtx
  flag : SharedFlag
  rw : RW
  underLock : Bool
deriving DecidableEq, Repr

/-- All accesses to the shared flags in the source: `event_handler`
(lines 475, 482), `fill_output_buffer_done_handler` (line 505),
`block_until_flushed` (lines 399-400), main's camera-ready wait
(line 687), and the drain loop's read (line 876) and reset (line 904) of
`encoder.ready`. -/
def flagAccesses : List FlagAccess :=
  [ ⟨475, AccessCtx.callback, SharedFlag.flushed, RW.writeAcc, true⟩,
    ⟨482, AccessCtx.callback, SharedFlag.cameraReady, RW.writeAcc, true⟩,
    ⟨505, AccessCtx.callback, SharedFlag.encoderReady, RW.writeAcc, true⟩,
    ⟨399, AccessCtx.controlThread, SharedFlag.flushed, RW.readAcc, true⟩,
    ⟨400, AccessCtx.controlThread, SharedFlag.flushed, RW.writeAcc, true⟩,
    ⟨687, AccessCtx.controlThread, SharedFlag.cameraReady, RW.readAcc, false⟩,
    ⟨876, AccessCtx.controlThread, SharedFlag.encoderReady, RW.readAcc, false⟩,
    ⟨904, AccessCtx.controlThread, SharedFlag.encoderReady, RW.writeAcc, false⟩ ]

/-- C8 counterexample: not every access to a shared flag holds the
`handler_lock` critical section — in particular the drain loop's read of
`encoder.ready` (line 876) and its reset before requesting the next fill
(line 904) are lock-free, refuting the claim as stated. -/
theorem shared_flag_lock_claim_cex :
    (flagAccesses.all fun a => a.underLock) = false := by
  decide

/-- C8 amended: every callback-context access to a shared flag and every
access to the flushed flag holds `handler_lock`, but the control thread's
polling accesses — main's camera-ready read (line 687) and the drain
loop's read (line 876) and reset (line 904) of `encoder.ready` — are
performed without holding the lock. -/
theorem shared_flag_lock_amended :
    ((flagAccesses.filter fun a => a.ctxt == AccessCtx.callback).all
      fun a => a.underLock) = true ∧
    ((flagAccesses.filter fun a => a.flag == SharedFlag.flushed).all
      fun a => a.underLock) = true ∧
    ((flagAccesses.filter fun a => !a.underLock).map fun a => a.line) =
      [687, 876, 904] := by
  decide

/-! ## Context and callback initialisation
`part_000` main lines 519-530:

  appctx ctx;
  memset(&ctx, 0, sizeof(ctx));
  vcos_semaphore_create(&ctx.handler_lock, "handler_lock", 1);
  OMX_CALLBACKTYPE callbacks;
  memset(&ctx, 0, sizeof(callbacks));
  callbacks.EventHandler   = event_handler;
  callbacks.FillBufferDone = fill_output_buffer_done_handler;

and `callback_init` in `omx_camera.h` (lines 136-141) repeats the same
`memset(&ctx, 0, sizeof(callbacks))`. The layout model is the ILP32
layout of the Raspberry Pi target: 4-byte ints and pointers, so
`appctx` places camera.{ready,handle,buffer_in} at offsets 0/4/8,
encoder.{ready,handle,buffer_out} at 12/16/20, null_sink.handle at 24,
flushed at 28, fd_out at 32 and handler_lock at 36, and
`OMX_CALLBACKTYPE` (EventHandler, EmptyBufferDone, FillBufferDone) has
size 12. -/

inductive CtxField
  | cameraReady
  | cameraHandle
  | cameraBufferIn
  | encoderReady
  | encoderHandle
  | encoderBufferOut
  | nullSinkHandle
  | flushedField
  | fdOut
  | handlerLock
deriving DecidableEq, Repr

def ctxFieldOffset : CtxField → Nat
  | CtxField.cameraReady => 0
  | CtxField.cameraHandle => 4
  | CtxField.cameraBufferIn => 8
  | CtxField.encoderReady => 12
  | CtxField.encoderHandle => 16
  | CtxField.encoderBufferOut => 20
  | CtxField.nullSinkHandle => 24
  | CtxField.flushedField => 28
  | CtxField.fdOut => 32
  | CtxField.handlerLock => 36

def allCtxFields : List CtxField :=
  [ CtxField.cameraReady, CtxField.cameraHandle, CtxField.cameraBufferIn,
    CtxField.encoderReady, CtxField.encoderHandle, CtxField.encoderBufferOut,
    CtxField.nullSinkHandle, CtxField.flushedField, CtxField.fdOut,
    CtxField.handlerLock ]

/-- Size of `VCOS_SEMAPHORE_T` in the layout model: an opaque platform
type of at least one word; only the offset of `handler_lock` matters to
the theorems below. -/
def vcos_semaphore_size : Nat := 4

def sizeof_appctx : Nat := 36 + vcos_semaphore_size

/-- Three function pointers: EventHandler, EmptyBufferDone, FillBufferDone. -/
def sizeof_callbacks : Nat := 12

inductive CallbackField
  | eventHandler
  | emptyBufferDone
  | fillBufferDone
deriving DecidableEq, Repr

inductive InitStep
  | memsetCtx (len : Nat)
  | memsetCallbacks (len : Nat)
  | createSemaphore
  | assignCallback (f : CallbackField)
deriving DecidableEq, Repr

/-- The context/callback initialisation of `part_000` main, lines 519-530,
one step per statement that touches `ctx` or `callbacks`. -/
def main_context_init_steps : List InitStep :=
  [ InitStep.memsetCtx sizeof_appctx,
    InitStep.createSemaphore,
    InitStep.memsetCtx sizeof_callbacks,
    InitStep.assignCallback CallbackField.eventHandler,
    InitStep.assignCallback CallbackField.fillBufferDone ]

/-- The body of `callback_init` in `omx_camera.h`, lines 136-141. -/
def callback_init_steps : List InitStep :=
  [ InitStep.memsetCtx sizeof_callbacks,
    InitStep.assignCallback CallbackField.eventHandler,
    InitStep.assignCallback CallbackField.fillBufferDone ]

def ctxMemsets (l : List InitStep) : List Nat :=
  l.filterMap fun s =>
    match s with
    | InitStep.memsetCtx n => some n
    | _ => none

def callbacksMemsets (l : List InitStep) : List Nat :=
  l.filterMap fun s =>
    match s with
    | InitStep.memsetCallbacks n => some n
    | _ => none

def assignedCallbacks (l : List InitStep) : List CallbackField :=
  l.filterMap fun s =>
    match s with
    | InitStep.assignCallback f => some f
    | _ => none

/-- A context field is hit by a zeroing of the first `len` bytes iff its
offset lies inside that range. -/
def fieldZeroed (len : Nat) (f : CtxField) : Bool := ctxFieldOffset f < len

/-- C10. Both callback-registration routines zero the context object with
the size of the callback structure — `memset(&ctx, 0, sizeof(callbacks))`
— and never zero the callback structure itself; of the callback table only
EventHandler and FillBufferDone are ever assigned, EmptyBufferDone is left
unassigned; in `part_000` main the semaphore is created before that
memset, and the memset rewrites a proper nonempty prefix of the
already-initialised context, namely the camera substructure fields. -/
theorem callback_registration_memset_facts :
    ctxMemsets main_context_init_steps = [sizeof_appctx, sizeof_callbacks] ∧
    ctxMemsets callback_init_steps = [sizeof_callbacks] ∧
    callbacksMemsets main_context_init_steps = [] ∧
    callbacksMemsets callback_init_steps = [] ∧
    assignedCallbacks main_context_init_steps =
      [CallbackField.eventHandler, CallbackField.fillBufferDone] ∧
    (assignedCallbacks callback_init_steps).contains CallbackField.emptyBufferDone
      = false ∧
    main_context_init_steps.indexOf InitStep.createSemaphore = 1 ∧
    (main_context_init_steps.drop 2).head? = some (InitStep.memsetCtx sizeof_callbacks) ∧
    0 < sizeof_callbacks ∧
    sizeof_callbacks < sizeof_appctx ∧
    allCtxFields.filter (fieldZeroed sizeof_callbacks) =
      [CtxField.cameraReady, CtxField.cameraHandle, CtxField.cameraBufferIn] := by
  decide

/-! ## The capture-and-encode drain loop
`part_000` main lines 866-911:

  int quit_detected = 0, quit_in_keyframe = 0, need_next_buffer_to_be_filled = 1;
  while(1) {
      if(ctx.encoder.ready) {
          if(want_quit && !quit_detected) {
              quit_detected = 1;
              quit_in_keyframe = ctx.encoder.buffer_out->nFlags & OMX_BUFFERFLAG_SYNCFRAME;
          }
          if(quit_detected && (quit_in_keyframe ^ (ctx.encoder.buffer_out->nFlags & OMX_BUFFERFLAG_SYNCFRAME))) {
              break;
          }
          output_written = fwrite(ctx.encoder.buffer_out->pBuffer + ctx.encoder.buffer_out->nOffset,
                                  1, ctx.encoder.buffer_out->nFilledLen, ctx.fd_out);
          need_next_buffer_to_be_filled = 1;
      }
      if(need_next_buffer_to_be_filled) {
          need_next_buffer_to_be_filled = 0;
          ctx.encoder.ready = 0;
          OMX_FillThisBuffer(ctx.encoder.handle, ctx.encoder.buffer_out);
      }
      usleep(1000);
  }

The environment of one loop iteration is an optional completion delivered
by `fill_output_buffer_done_handler` since the previous iteration (which
sets `encoder.ready` and fills the buffer header) together with the value
of the signal-handler flag `want_quit`. One iteration of the loop body is
`drainBody`; `drainRun` folds it over a list of iteration inputs, emitting
an event trace (deliveries, the quit-detection latch, sink writes and fill
requests), tracking how many fill requests are outstanding, and recording
whether a delivery ever arrived with no fill outstanding (`valid`). -/

def OMX_BUFFERFLAG_SYNCFRAME : Nat := 32

structure OmxBuffer where
  pBuffer : List Nat
  nOffset : Nat
  nFilledLen : Nat
  nFlags : Nat
deriving DecidableEq, Repr

/-- The keyframe bit of a buffer header, `nFlags & OMX_BUFFERFLAG_SYNCFRAME`. -/
def syncBits (b : OmxBuffer) : Nat := Nat.land b.nFlags OMX_BUFFERFLAG_SYNCFRAME

/-- The bytes `fwrite` emits for a buffer: `pBuffer + nOffset`, length
`nFilledLen`. -/
def bufPayload (b : OmxBuffer) : List Nat :=
  (b.pBuffer.drop b.nOffset).take b.nFilledLen

structure DrainState where
  quitDetected : Bool
  quitInKeyframe : Nat
  needNext : Bool
  encoderReady : Bool
  bufferOut : OmxBuffer
deriving DecidableEq, Repr

/-- State at loop entry: `quit_detected = 0`, `quit_in_keyframe = 0`,
`need_next_buffer_to_be_filled = 1`, `encoder.ready = 0` (the context was
zeroed), buffer header still zeroed. -/
def initialDrainState : DrainState :=
  ⟨false, 0, true, false, ⟨[], 0, 0, 0⟩⟩

inductive DrainEv
  | deliver (b : OmxBuffer)
  | quitDetect (latched : Nat)
  | write (b : OmxBuffer)
  | fill
deriving DecidableEq, Repr

structure DrainInput where
  delivery : Option OmxBuffer
  wantQuit : Bool
deriving DecidableEq, Repr

structure BodyResult where
  evs : List DrainEv
  brk : Bool
  next : DrainState
deriving DecidableEq, Repr

/-- One iteration of the drain-loop body, mirroring the source statement
for statement: the ready test, the quit-detection latch, the
keyframe-boundary break test (an xor of the latched bits against the
current buffer's keyframe bits), the sink write, and the
`need_next_buffer_to_be_filled` block that clears `encoder.ready` and
issues `OMX_FillThisBuffer`. -/
def drainBody (wantQuit : Bool) (s : DrainState) : BodyResult :=
  if s.encoderReady then
    if wantQuit && !s.quitDetected then
      let k := syncBits s.bufferOut
      if (k ^^^ syncBits s.bufferOut) != 0 then
        ⟨[DrainEv.quitDetect k], true,
          { s with quitDetected := true, quitInKeyframe := k }⟩
      else
        ⟨[DrainEv.quitDetect k, DrainEv.write s.bufferOut, DrainEv.fill], false,
          { s with quitDetected := true, quitInKeyframe := k,
                   needNext := false, encoderReady := false }⟩
    else
      if s.quitDetected && ((s.quitInKeyframe ^^^ syncBits s.bufferOut) != 0) then
        ⟨[], true, s⟩
      else
        ⟨[DrainEv.write s.bufferOut, DrainEv.fill], false,
          { s with needNext := false, encoderReady := false }⟩
  else
    if s.needNext then
      ⟨[DrainEv.fill], false, { s with needNext := false, encoderReady := false }⟩
    else
      ⟨[], false, s⟩

/-- A completion delivery sets `encoder.ready` and replaces the buffer
header's contents with what the encoder filled. -/
def applyDelivery (d : Option OmxBuffer) (s : DrainState) : DrainState :=
  match d with
  | none => s
  | some b => { s with encoderReady := true, bufferOut := b }

def deliveryEvs (d : Option OmxBuffer) : List DrainEv :=
  match d with
  | none => []
  | some b => [DrainEv.deliver b]

def isFillEv : DrainEv → Bool
  | DrainEv.fill => true
  | _ => false

def numFills (l : List DrainEv) : Nat := (l.filter isFillEv).length

structure DrainRun where
  trace : List DrainEv
  exited : Bool
  final : DrainState
  outstanding : Nat
  valid : Bool
deriving DecidableEq, Repr

/-- The drain loop over a list of iteration inputs. `outstanding` counts
fill requests issued and not yet completed; a delivery is only legal when
exactly one is outstanding (the hardware fills only a requested buffer),
and `valid` records that every delivery of the run was legal. -/
def drainRun : List DrainInput → DrainState → Nat → DrainRun
  | [], s, out => ⟨[], false, s, out, true⟩
  | inp :: rest, s, out =>
    let delivOK : Bool := inp.delivery.isNone || (out == 1)
    let out1 : Nat := if inp.delivery.isSome then out - 1 else out
    let br := drainBody inp.wantQuit (applyDelivery inp.delivery s)
    let out2 := out1 + numFills br.evs
    if br.brk then
      ⟨deliveryEvs inp.delivery ++ br.evs, true, br.next, out2, delivOK⟩
    else
      let r := drainRun rest br.next out2
      ⟨deliveryEvs inp.delivery ++ br.evs ++ r.trace, r.exited, r.final,
        r.outstanding, delivOK && r.valid⟩

/-- The buffers written to the sink, in trace order. -/
def traceWrites : List DrainEv → List OmxBuffer
  | [] => []
  | DrainEv.write b :: r => b :: traceWrites r
  | _ :: r => traceWrites r

/-- The completions an input list delivers, in order. -/
def inputDeliveries (l : List DrainInput) : List OmxBuffer :=
  l.filterMap fun i => i.delivery

/-- Monitor for the no-double-fill discipline: scanning the trace with
flags `d` (a completion was delivered since the last fill request) and `w`
(a write was performed since the last fill request), every fill request
must find both flags set — i.e. a new fill is only issued after the
previous fill completed and its payload was written. -/
def fillDiscipline : List DrainEv → Bool → Bool → Bool
  | [], _, _ => true
  | DrainEv.fill :: r, d, w => d && w && fillDiscipline r false false
  | DrainEv.deliver _ :: r, _, w => fillDiscipline r true w
  | DrainEv.write _ :: r, d, _ => fillDiscipline r d true
  | DrainEv.quitDetect _ :: r, d, w => fillDiscipline r d w

/-- The part of a trace after the first quit-detection latch, with the
latched keyframe bits. -/
def evsAfterDetect : List DrainEv → Option (Nat × List DrainEv)
  | [] => none
  | DrainEv.quitDetect k :: r => some (k, r)
  | _ :: r => evsAfterDetect r

/-- Whether the last buffer of a write list carries the keyframe marker. -/
def lastWriteIsKeyframe (bs : List OmxBuffer) : Bool :=
  match bs.getLast? with
  | none => false
  | some b => syncBits b != 0

/-- The graceful-shutdown property exactly as the claim states it: from
the point the shutdown signal is observed up to loop exit, either the last
buffer written carries the keyframe marker, or nothing is written at all
and the buffer current at signal time was itself already a keyframe
boundary. -/
def claimKeyframeAligned (t : List DrainEv) : Bool :=
  match evsAfterDetect t with
  | none => true
  | some (k, rest) =>
    let ws := traceWrites rest
    (!ws.isEmpty && lastWriteIsKeyframe ws) || (ws.isEmpty && (k != 0))

/-- The amended graceful-shutdown property: after the signal is observed
the loop always writes the signaled buffer first (the event following the
latch is a write whose keyframe bits equal the latched value), and every
buffer written from the latch up to loop exit has keyframe bits equal to
the latched value — the loop exits at the first buffer whose
keyframe-ness differs, without writing it. -/
def amendedKeyframeAligned (t : List DrainEv) : Bool :=
  match evsAfterDetect t with
  | none => true
  | some (k, rest) =>
    ((traceWrites rest).all fun b => syncBits b == k) &&
    (match rest with
     | DrainEv.write b :: _ => syncBits b == k
     | _ => false)
theorem drain_writes_aux :
    ∀ (inputs : List DrainInput) (s : DrainState) (out : Nat),
      s.encoderReady = false → s.quitDetected = false →
      (∀ i ∈ inputs, i.wantQuit = false) →
      traceWrites (drainRun inputs s out).trace = inputDeliveries inputs ∧
      (drainRun inputs s out).exited = false := by
  intro inputs
  induction inputs with
  | nil =>
    intro s out h1 h2 _
    simp [drainRun, traceWrites, inputDeliveries]
  | cons inp rest ih =>
    intro s out h1 h2 hq
    have hqi : inp.wantQuit = false := hq inp (by simp)
    have hqr : ∀ i ∈ rest, i.wantQuit = false := fun i hi => hq i (by simp [hi])
    rcases inp with ⟨d, wq⟩
    simp only at hqi
    subst hqi
    cases d with
    | none =>
      by_cases hn : s.needNext
      · simp only [drainRun, drainBody, applyDelivery, deliveryEvs, h1, h2, hn,
          Bool.false_and, if_false, if_true, Bool.false_eq_true, numFills,
          List.filter, isFillEv]
        have := ih { s with needNext := false, encoderReady := false } (out + 1) rfl
          (by simpa using h2) hqr
        simpa [traceWrites, inputDeliveries, List.filterMap_cons, h2] using this
      · simp only [drainRun, drainBody, applyDelivery, deliveryEvs, h1, h2, hn,
          Bool.false_and, if_false, if_true, Bool.false_eq_true, numFills,
          List.filter, isFillEv]
        have := ih s (out + 0) h1 h2 hqr
        simpa [traceWrites, inputDeliveries, List.filterMap_cons] using this
    | some b =>
      simp only [drainRun, drainBody, applyDelivery, deliveryEvs, h2,
        Bool.false_and, if_false, if_true, Bool.false_eq_true, numFills,
        List.filter, isFillEv]
      have := ih { s with encoderReady := false, bufferOut := b, needNext := false }
        (out - 1 + 1) rfl (by simpa using h2) hqr
      simpa [traceWrites, inputDeliveries, List.filterMap_cons, h2] using this

/-- C7. Normal-run write count and order: for every sequence of completion
events delivered while the shutdown flag is never raised, the drain loop
never exits and performs exactly one sink write per completion event, in
delivery order, each write carrying that buffer's payload bytes
(`pBuffer + nOffset`, length `nFilledLen`). -/
theorem drain_normal_run_writes (inputs : List DrainInput)
    (h : ∀ i ∈ inputs, i.wantQuit = false) :
    traceWrites (drainRun inputs initialDrainState 0).trace = inputDeliveries inputs ∧
    (traceWrites (drainRun inputs initialDrainState 0).trace).map bufPayload =
      (inputDeliveries inputs).map bufPayload ∧
    (drainRun inputs initialDrainState 0).exited = false := by
  obtain ⟨h1, h2⟩ := drain_writes_aux inputs initialDrainState 0 rfl rfl h
  exact ⟨h1, by rw [h1], h2⟩

/-- Concrete buffers and inputs for the C7 witness. -/
def wNormalBufA : OmxBuffer := ⟨[7, 8, 9], 1, 2, 32⟩

def wNormalBufB : OmxBuffer := ⟨[4, 5], 0, 2, 0⟩

def wNormalInputs : List DrainInput :=
  [⟨none, false⟩, ⟨some wNormalBufA, false⟩, ⟨none, false⟩, ⟨some wNormalBufB, false⟩]

/-- Witness for C7: a concrete quiet run with two completions produces
exactly those two writes in order. -/
theorem drain_normal_run_writes_witness :
    (∀ i ∈ wNormalInputs, i.wantQuit = false) ∧
    traceWrites (drainRun wNormalInputs initialDrainState 0).trace =
      inputDeliveries wNormalInputs :=
  ⟨by decide, (drain_normal_run_writes wNormalInputs (by decide)).1⟩

theorem drainRun_valid_cons (inp : DrainInput) (rest : List DrainInput)
    (s : DrainState) (out : Nat) (h : (drainRun (inp :: rest) s out).valid = true) :
    (inp.delivery.isNone || (out == 1)) = true := by
  simp only [drainRun] at h
  cases hbrk : (drainBody inp.wantQuit (applyDelivery inp.delivery s)).brk with
  | true => simpa [hbrk] using h
  | false =>
    simp only [hbrk, Bool.false_eq_true, if_false, Bool.and_eq_true] at h
    exact h.1

/-- Invariant for the no-double-fill proof: between iterations the loop is
either at its entry configuration (a fill about to be requested, nothing
outstanding, the discipline monitor fully enabled) or waiting on exactly
one outstanding fill (monitor flags cleared since the last fill request). -/
def NoDoubleFillInv (s : DrainState) (out : Nat) (d w : Bool) : Prop :=
  (s.needNext = true ∧ s.encoderReady = false ∧ out = 0 ∧ d = true ∧ w = true) ∨
  (s.needNext = false ∧ s.encoderReady = false ∧ out = 1 ∧ d = false ∧ w = false)

theorem drain_fill_discipline_aux :
    ∀ (inputs : List DrainInput) (s : DrainState) (out : Nat) (d w : Bool),
      NoDoubleFillInv s out d w →
      (drainRun inputs s out).valid = true →
      fillDiscipline (drainRun inputs s out).trace d w = true := by
  intro inputs
  induction inputs with
  | nil =>
    intro s out d w _ _
    simp [drainRun, fillDiscipline]
  | cons inp rest ih =>
    intro s out d w hinv hv
    rcases hinv with ⟨hn, hr, ho, hd, hw⟩ | ⟨hn, hr, ho, hd, hw⟩
    · subst hd; subst hw; subst ho
      rcases inp with ⟨dv, wq⟩
      cases dv with
      | none =>
        have hbody : drainBody wq s =
            ⟨[DrainEv.fill], false, { s with needNext := false, encoderReady := false }⟩ := by
          simp [drainBody, hr, hn]
        simp only [drainRun, applyDelivery, deliveryEvs, hbody, numFills,
          List.filter, isFillEv, Bool.false_eq_true, if_false,
          List.nil_append, List.cons_append, Option.isNone_none, Bool.true_or,
          Bool.true_and] at hv ⊢
        simp only [fillDiscipline, Bool.true_and, Bool.and_self]
        exact ih _ _ false false (Or.inr ⟨rfl, rfl, rfl, rfl, rfl⟩) hv
      | some b =>
        have := drainRun_valid_cons ⟨some b, wq⟩ rest s _ hv
        simp at this
    · subst hd; subst hw; subst ho
      rcases inp with ⟨dv, wq⟩
      cases dv with
      | none =>
        have hbody : drainBody wq s = ⟨[], false, s⟩ := by
          simp [drainBody, hr, hn]
        simp only [drainRun, applyDelivery, deliveryEvs, hbody, numFills,
          List.filter, isFillEv, Bool.false_eq_true, if_false,
          List.nil_append, Option.isNone_none, Bool.true_or, Bool.true_and,
          Option.isSome_none, if_true, Nat.add_zero] at hv ⊢
        exact ih _ _ false false (Or.inr ⟨hn, hr, rfl, rfl, rfl⟩) hv
      | some b =>
        set s1 : DrainState := { s with encoderReady := true, bufferOut := b } with hs1
        by_cases hL : (wq && !s.quitDetected) = true
        · have hbody : drainBody wq s1 =
              ⟨[DrainEv.quitDetect (syncBits b), DrainEv.write b, DrainEv.fill], false,
                { s1 with quitDetected := true, quitInKeyframe := syncBits b,
                          needNext := false, encoderReady := false }⟩ := by
            simp [drainBody, hs1, hL, Nat.xor_self]
          simp only [drainRun, applyDelivery, deliveryEvs, ← hs1, hbody, numFills,
            List.filter, isFillEv, Bool.false_eq_true, if_false,
            List.nil_append, List.cons_append, Option.isNone_some, Option.isSome_some,
            Bool.false_or, beq_self_eq_true, if_true, Bool.true_and] at hv ⊢
          simp only [fillDiscipline, Bool.true_and, Bool.and_self]
          exact ih _ _ false false (Or.inr ⟨rfl, rfl, rfl, rfl, rfl⟩) hv
        · by_cases hB : (s.quitDetected && (s.quitInKeyframe ^^^ syncBits b != 0)) = true
          · have hbody : drainBody wq s1 = ⟨[], true, s1⟩ := by
              simp only [drainBody, hs1]
              simp [hL, hB]
            simp only [drainRun, applyDelivery, deliveryEvs, ← hs1, hbody,
              Bool.false_eq_true, if_true, List.nil_append] at hv ⊢
            simp [fillDiscipline]
          · have hbody : drainBody wq s1 =
                ⟨[DrainEv.write b, DrainEv.fill], false,
                  { s1 with needNext := false, encoderReady := false }⟩ := by
              simp only [drainBody, hs1]
              simp [hL, hB]
            simp only [drainRun, applyDelivery, deliveryEvs, ← hs1, hbody, numFills,
              List.filter, isFillEv, Bool.false_eq_true, if_false,
              List.nil_append, List.cons_append, Option.isNone_some, Option.isSome_some,
              Bool.false_or, beq_self_eq_true, if_true, Bool.true_and] at hv ⊢
            simp only [fillDiscipline, Bool.true_and, Bool.and_self]
            exact ih _ _ false false (Or.inr ⟨rfl, rfl, rfl, rfl, rfl⟩) hv

/-- C2. No double-fill: on every run of the drain loop in which each
completion was delivered against an outstanding fill request, the event
trace satisfies the fill discipline — every `OMX_FillThisBuffer` request
after the first is issued only after the previously requested fill
completed (`encoder.ready` observed) and the buffer's payload was written
to the sink, so at most one fill request is ever outstanding. -/
theorem drain_no_double_fill (inputs : List DrainInput)
    (h : (drainRun inputs initialDrainState 0).valid = true) :
    fillDiscipline (drainRun inputs initialDrainState 0).trace true true = true :=
  drain_fill_discipline_aux inputs initialDrainState 0 true true
    (Or.inl ⟨rfl, rfl, rfl, rfl, rfl⟩) h

/-- Concrete buffers and inputs for the C2 witness. -/
def wFillBufA : OmxBuffer := ⟨[1, 2], 0, 2, 32⟩

def wFillBufB : OmxBuffer := ⟨[3], 0, 1, 0⟩

def wFillInputs : List DrainInput :=
  [⟨none, false⟩, ⟨some wFillBufA, false⟩, ⟨none, false⟩, ⟨some wFillBufB, true⟩]

/-- Witness for C2: a concrete valid run satisfies the fill discipline. -/
theorem drain_no_double_fill_witness :
    (drainRun wFillInputs initialDrainState 0).valid = true ∧
    fillDiscipline (drainRun wFillInputs initialDrainState 0).trace true true = true :=
  ⟨by decide, drain_no_double_fill wFillInputs (by decide)⟩

theorem drain_post_detect_aux :
    ∀ (inputs : List DrainInput) (s : DrainState) (out : Nat),
      s.quitDetected = true → s.encoderReady = false →
      ((traceWrites (drainRun inputs s out).trace).all
        fun b => syncBits b == s.quitInKeyframe) = true := by
  intro inputs
  induction inputs with
  | nil =>
    intro s out _ _
    simp [drainRun, traceWrites]
  | cons inp rest ih =>
    intro s out hq hr
    rcases inp with ⟨dv, wq⟩
    cases dv with
    | none =>
      by_cases hn : s.needNext
      · have hbody : drainBody wq s =
            ⟨[DrainEv.fill], false, { s with needNext := false, encoderReady := false }⟩ := by
          simp [drainBody, hr, hn]
        simp only [drainRun, applyDelivery, deliveryEvs, hbody,
          Bool.false_eq_true, if_false, List.nil_append, List.cons_append, traceWrites]
        apply ih
        · simpa using hq
        · rfl
      · have hbody : drainBody wq s = ⟨[], false, s⟩ := by
          simp [drainBody, hr, hn]
        simp only [drainRun, applyDelivery, deliveryEvs, hbody,
          Bool.false_eq_true, if_false, List.nil_append]
        exact ih s _ hq hr
    | some b =>
      set s1 : DrainState := { s with encoderReady := true, bufferOut := b } with hs1
      have hL : (wq && !s1.quitDetected) = false := by
        simp [hs1, hq]
      by_cases hB : (s.quitInKeyframe ^^^ syncBits b) = 0
      · have hbeq : syncBits b = s.quitInKeyframe := (Nat.xor_eq_zero.mp hB).symm
        have hbody : drainBody wq s1 =
            ⟨[DrainEv.write b, DrainEv.fill], false,
              { s1 with needNext := false, encoderReady := false }⟩ := by
          simp only [drainBody, hs1]
          simp [hq, hB]
        simp only [drainRun, applyDelivery, deliveryEvs, ← hs1, hbody,
          Bool.false_eq_true, if_false, List.nil_append, List.cons_append, traceWrites]
        simp only [List.all_cons, Bool.and_eq_true, beq_iff_eq]
        refine ⟨hbeq, ?_⟩
        have hnext := ih { s1 with needNext := false, encoderReady := false }
          (out - 1 + numFills [DrainEv.write b, DrainEv.fill])
          (by simp [hs1, hq]) rfl
        simpa [hs1] using hnext
      · have hbody : drainBody wq s1 = ⟨[], true, s1⟩ := by
          simp only [drainBody, hs1]
          simp [hq, hB]
        simp only [drainRun, applyDelivery, deliveryEvs, ← hs1, hbody, if_true,
          List.nil_append]
        simp [traceWrites]

theorem amended_cons_deliver (b : OmxBuffer) (t : List DrainEv) :
    amendedKeyframeAligned (DrainEv.deliver b :: t) = amendedKeyframeAligned t := rfl

theorem amended_cons_write (b : OmxBuffer) (t : List DrainEv) :
    amendedKeyframeAligned (DrainEv.write b :: t) = amendedKeyframeAligned t := rfl

theorem amended_cons_fill (t : List DrainEv) :
    amendedKeyframeAligned (DrainEv.fill :: t) = amendedKeyframeAligned t := rfl

theorem drain_pre_detect_aux :
    ∀ (inputs : List DrainInput) (s : DrainState) (out : Nat),
      s.quitDetected = false →
      amendedKeyframeAligned (drainRun inputs s out).trace = true := by
  intro inputs
  induction inputs with
  | nil =>
    intro s out _
    simp [drainRun, amendedKeyframeAligned, evsAfterDetect]
  | cons inp rest ih =>
    intro s out hq
    rcases inp with ⟨dv, wq⟩
    cases dv with
    | none =>
      by_cases hr : s.encoderReady
      · cases wq with
        | true =>
          have hbody : drainBody true s =
              ⟨[DrainEv.quitDetect (syncBits s.bufferOut), DrainEv.write s.bufferOut,
                 DrainEv.fill], false,
                { s with quitDetected := true, quitInKeyframe := syncBits s.bufferOut,
                         needNext := false, encoderReady := false }⟩ := by
            simp [drainBody, hr, hq, Nat.xor_self]
          simp only [drainRun, applyDelivery, deliveryEvs, hbody,
            Bool.false_eq_true, if_false, List.nil_append, List.cons_append]
          simp only [amendedKeyframeAligned, evsAfterDetect, traceWrites,
            List.all_cons, beq_self_eq_true, Bool.true_and, Bool.and_true]
          apply drain_post_detect_aux rest
          · rfl
          · rfl
        | false =>
          have hbody : drainBody false s =
              ⟨[DrainEv.write s.bufferOut, DrainEv.fill], false,
                { s with needNext := false, encoderReady := false }⟩ := by
            simp [drainBody, hr, hq]
          simp only [drainRun, applyDelivery, deliveryEvs, hbody,
            Bool.false_eq_true, if_false, List.nil_append, List.cons_append]
          rw [amended_cons_write, amended_cons_fill]
          exact ih _ _ (by simpa using hq)
      · by_cases hn : s.needNext
        · have hbody : drainBody wq s =
              ⟨[DrainEv.fill], false, { s with needNext := false, encoderReady := false }⟩ := by
            simp [drainBody, hr, hn]
          simp only [drainRun, applyDelivery, deliveryEvs, hbody,
            Bool.false_eq_true, if_false, List.nil_append, List.cons_append]
          rw [amended_cons_fill]
          exact ih _ _ (by simpa using hq)
        · have hbody : drainBody wq s = ⟨[], false, s⟩ := by
            simp [drainBody, hr, hn]
          simp only [drainRun, applyDelivery, deliveryEvs, hbody,
            Bool.false_eq_true, if_false, List.nil_append]
          exact ih s _ hq
    | some b =>
      set s1 : DrainState := { s with encoderReady := true, bufferOut := b } with hs1
      cases wq with
      | true =>
        have hbody : drainBody true s1 =
            ⟨[DrainEv.quitDetect (syncBits b), DrainEv.write b, DrainEv.fill], false,
              { s1 with quitDetected := true, quitInKeyframe := syncBits b,
                        needNext := false, encoderReady := false }⟩ := by
          simp only [drainBody, hs1]
          simp [hq, Nat.xor_self]
        simp only [drainRun, applyDelivery, deliveryEvs, ← hs1, hbody,
          Bool.false_eq_true, if_false, List.nil_append, List.cons_append]
        simp only [amendedKeyframeAligned, evsAfterDetect, traceWrites,
          List.all_cons, beq_self_eq_true, Bool.true_and, Bool.and_true]
        apply drain_post_detect_aux rest
        · rfl
        · rfl
      | false =>
        have hbody : drainBody false s1 =
            ⟨[DrainEv.write b, DrainEv.fill], false,
              { s1 with needNext := false, encoderReady := false }⟩ := by
          simp only [drainBody, hs1]
          simp [hq]
        simp only [drainRun, applyDelivery, deliveryEvs, ← hs1, hbody,
          Bool.false_eq_true, if_false, List.nil_append, List.cons_append]
        rw [amended_cons_deliver, amended_cons_write, amended_cons_fill]
        exact ih _ _ (by simp [hs1, hq])

/-- C1 amended theorem. Once the drain loop observes the shutdown signal
(the `quit_detected` latch fires, recording the keyframe bits of the
buffer current at signal time), the signaled buffer itself is always
written — the event following the latch is a write whose keyframe bits
equal the latched value — and every buffer written from that point up to
loop exit has keyframe bits equal to the latched value; the loop exits at
the first filled buffer whose keyframe-ness differs, without writing it. -/
theorem drain_graceful_shutdown_amended :
    ∀ (inputs : List DrainInput),
      amendedKeyframeAligned (drainRun inputs initialDrainState 0).trace = true :=
  fun inputs => drain_pre_detect_aux inputs initialDrainState 0 rfl

/-- Concrete buffers and inputs for the C1 counterexample: the signal
arrives while the current filled buffer is a non-keyframe, and the next
filled buffer is a keyframe. -/
def cexMidGopBuf : OmxBuffer := ⟨[9, 9], 0, 2, 0⟩

def cexBoundaryBuf : OmxBuffer := ⟨[5], 0, 1, 32⟩

def cexMidGopInputs : List DrainInput :=
  [⟨none, false⟩, ⟨some cexMidGopBuf, true⟩, ⟨some cexBoundaryBuf, true⟩]

/-- C1 counterexample: on a valid run in which the shutdown signal is
observed while the current buffer is a non-keyframe, the loop writes that
non-keyframe buffer and exits at the next keyframe without writing it —
so the buffers written after the signal do not end with a keyframe-marked
buffer, and the loop did not exit immediately without writing either:
the claimed property is false on this run. -/
theorem drain_graceful_shutdown_claim_cex :
    (drainRun cexMidGopInputs initialDrainState 0).valid = true ∧
    (drainRun cexMidGopInputs initialDrainState 0).exited = true ∧
    claimKeyframeAligned (drainRun cexMidGopInputs initialDrainState 0).trace = false := by
  decide
